import Mathlib

/-!
Verification of the statistics and analysis engine of the exam score
analysis repository (source file: src/成绩分析核心.py).

The Python source is shallowly embedded below.  Numbers that the source
holds as machine floats (scores, rates, percent thresholds) are modelled
as exact rationals (ℚ); the two places where the source floors a float
product, math.floor(total_count * 0.3) and math.floor(total_count * 0.8),
are modelled as the natural-number divisions 3 * n / 10 and 4 * n / 5,
which agree with the IEEE-double computation for every realistic dataset
size.  Fallible operations (pandas .iloc[0] on a possibly-empty selection,
dictionary lookup, ZeroDivisionError) are modelled with Option.
-/

/-! ## Subject registry (classes SubjectConfig and SubjectManager) -/

/-- Mirrors class SubjectConfig: name, max score and the two percent
thresholds. -/
structure SubjectConfig where
  name : String
  max_score : ℚ
  pass_percent : ℚ
  excellence_percent : ℚ
deriving DecidableEq, Repr

/-- SubjectManager.add_subject: appends the config unless a subject of the
same name is already present; returns the success flag together with the
new subject list. -/
def add_subject (subjects : List SubjectConfig) (config : SubjectConfig) :
    Bool × List SubjectConfig :=
  if subjects.any (fun s => s.name == config.name) then (false, subjects)
  else (true, subjects ++ [config])

/-- SubjectManager.remove_subject: keeps exactly the configs whose name
differs. -/
def remove_subject (subjects : List SubjectConfig) (name : String) :
    List SubjectConfig :=
  subjects.filter (fun s => s.name != name)

/-- SubjectManager.update_subject: replaces the first config whose name
matches, wholesale, by the given config; returns whether a match was
found. -/
def update_subject (subjects : List SubjectConfig) (name : String)
    (config : SubjectConfig) : Bool × List SubjectConfig :=
  match subjects with
  | [] => (false, [])
  | s :: rest =>
    if s.name == name then (true, config :: rest)
    else
      let r := update_subject rest name config
      (r.1, s :: r.2)

/-- SubjectManager.get_subject: first config with the given name. -/
def get_subject (subjects : List SubjectConfig) (name : String) :
    Option SubjectConfig :=
  subjects.find? (fun s => s.name == name)

/-- The list of stored subject names. -/
def subject_names (subjects : List SubjectConfig) : List String :=
  subjects.map (fun s => s.name)

/-! ## Cleaned dataset (one row of the cleaned DataFrame)

After _clean_data the frame has, per configured subject, an absence-flag
column (values 'Y'/'N' per the ingestion contract) and a numeric score
column where missing values are NaN.  A row is modelled as the school name
together with the two per-subject columns. -/

structure StudentRecord where
  school : String
  /-- the 缺考 (absence) column for a subject name -/
  absentFlag : String → String
  /-- the numeric score column for a subject name; none models NaN -/
  score : String → Option ℚ

/-! ## Stable insertion sort

pandas sort_values and Python list.sort are stable; ssort is the stable
sort used to embed them (insert each element before the first element it
compares ≤ to). -/

def insLe {α : Type} (le : α → α → Bool) (x : α) : List α → List α
  | [] => [x]
  | y :: ys => if le x y then x :: y :: ys else y :: insLe le x ys

def ssort {α : Type} (le : α → α → Bool) : List α → List α
  | [] => []
  | x :: xs => insLe le x (ssort le xs)

/-! ## Sorting scores and pandas rank(method='min') -/

/-- sort_values(ascending=False): the scores in non-increasing order. -/
def sortDesc (l : List ℚ) : List ℚ :=
  ssort (fun a b => decide (b ≤ a)) l

/-- sort ascending (used for rank(ascending=True) and nsmallest). -/
def sortAsc (l : List ℚ) : List ℚ :=
  ssort (fun a b => decide (a ≤ b)) l

/-- pandas Series.rank(method='min'): the rank of a value is one plus the
index of its first occurrence in the sorted column (ascending or
descending). -/
def rank_min (asc : Bool) (vals : List ℚ) (v : ℚ) : ℕ :=
  let sorted := if asc then sortAsc vals else sortDesc vals
  1 + sorted.findIdx (fun w => decide (w = v))

/-! ## Series max and min (pandas Series.max / Series.min)

Only evaluated on non-empty series by the source; 0 is a junk value for
the empty list. -/

def listMax : List ℚ → ℚ
  | [] => 0
  | x :: xs => xs.foldl max x

def listMin : List ℚ → ℚ
  | [] => 0
  | x :: xs => xs.foldl min x

/-! ## Per-subject statistics (_calculate_subject_stats) -/

/-- One row of the per-school statistics table.  The field names translate
the source DataFrame columns 学校 / 考试人数 / 合格率 / 优秀率 / 平均分 /
后20% / 前30% and the five 排序 (rank) columns; the district-wide (全区)
row keeps its rank cells empty, modelled by none. -/
structure SchoolAggregate where
  school : String
  count : ℕ
  pass_rate : ℚ
  excellence_rate : ℚ
  avg_score : ℚ
  bottom20_rate : ℚ
  top30_rate : ℚ
  pass_rank : Option ℕ
  excellence_rank : Option ℕ
  avg_rank : Option ℕ
  bottom20_rank : Option ℕ
  top30_rank : Option ℕ
deriving DecidableEq, Repr

/-- The dict returned by _calculate_subject_stats / _calculate_total_stats.
In the empty-data branch the source returns only the keys data, pass_line
and excellence_line; the three absent keys are modelled by none. -/
structure SubjectStats where
  data : List SchoolAggregate
  pass_line : ℚ
  excellence_line : ℚ
  top30_line : Option ℚ
  bottom20_line : Option ℚ
  max_score : Option ℚ
deriving DecidableEq, Repr

/-- Scores of the students not marked absent ('N' flag) whose score is
present (dropna). -/
def eligibleScores (subject : String) (df : List StudentRecord) : List ℚ :=
  (df.filter (fun r => r.absentFlag subject == "N")).filterMap
    (fun r => r.score subject)

/-- Eligible scores of one school (school filter first, as in the source).
-/
def schoolEligibleScores (subject school : String) (df : List StudentRecord) :
    List ℚ :=
  eligibleScores subject (df.filter (fun r => r.school == school))

/-- The five statistics of one aggregate row (count, percentage of scores
at or above the pass and excellence lines, mean, percentage at or below
the bottom20 line, percentage at or above the top30 line), without ranks.
The same five formulas produce the per-school rows and the 全区 row in
both calculators. -/
def mk_school_row (school : String) (scores : List ℚ)
    (pass_line excellence_line top30_line bottom20_line : ℚ) :
    SchoolAggregate :=
  let count := scores.length
  { school := school
    count := count
    pass_rate := (scores.countP (fun x => decide (pass_line ≤ x)) : ℚ) / (count : ℚ) * 100
    excellence_rate := (scores.countP (fun x => decide (excellence_line ≤ x)) : ℚ) / (count : ℚ) * 100
    avg_score := scores.sum / (count : ℚ)
    bottom20_rate := (scores.countP (fun x => decide (x ≤ bottom20_line)) : ℚ) / (count : ℚ) * 100
    top30_rate := (scores.countP (fun x => decide (top30_line ≤ x)) : ℚ) / (count : ℚ) * 100
    pass_rank := none
    excellence_rank := none
    avg_rank := none
    bottom20_rank := none
    top30_rank := none }

/-- The five rank-column assignments (df_stats[...].rank(...)), performed
on the per-school rows before the 全区 row is appended. -/
def assignRanks (rows : List SchoolAggregate) : List SchoolAggregate :=
  rows.map (fun r =>
    { r with
      pass_rank := some (rank_min false (rows.map (fun w => w.pass_rate)) r.pass_rate)
      excellence_rank := some (rank_min false (rows.map (fun w => w.excellence_rate)) r.excellence_rate)
      avg_rank := some (rank_min false (rows.map (fun w => w.avg_score)) r.avg_score)
      bottom20_rank := some (rank_min true (rows.map (fun w => w.bottom20_rate)) r.bottom20_rate)
      top30_rank := some (rank_min false (rows.map (fun w => w.top30_rate)) r.top30_rate) })

/-- _calculate_subject_stats for one subject config (the caller resolves
the config from the registry; it exists for every computed subject). -/
def calculate_subject_stats (config : SubjectConfig) (schools : List String)
    (df : List StudentRecord) : SubjectStats :=
  let pass_line := config.max_score * config.pass_percent / 100
  let excellence_line := config.max_score * config.excellence_percent / 100
  let all_scores := eligibleScores config.name df
  let total_count := all_scores.length
  if total_count = 0 then
    { data := [], pass_line := pass_line, excellence_line := excellence_line,
      top30_line := none, bottom20_line := none, max_score := none }
  else
    let sorted_scores := sortDesc all_scores
    let top30_count := 3 * total_count / 10
    let top30_line :=
      if 0 < top30_count ∧ top30_count ≤ total_count then
        sorted_scores.getD (top30_count - 1) 0
      else listMax sorted_scores
    let top80_count := 4 * total_count / 5
    let bottom20_line :=
      if top80_count < total_count then sorted_scores.getD top80_count 0
      else listMin sorted_scores
    let school_rows := schools.filterMap (fun school =>
      let school_scores := schoolEligibleScores config.name school df
      if school_scores.length = 0 then none
      else some (mk_school_row school school_scores pass_line excellence_line
        top30_line bottom20_line))
    { data := assignRanks school_rows ++
        [mk_school_row "全区" all_scores pass_line excellence_line top30_line bottom20_line],
      pass_line := pass_line, excellence_line := excellence_line,
      top30_line := some top30_line, bottom20_line := some bottom20_line,
      max_score := some config.max_score }

/-! ## Total-score statistics (_calculate_total_stats) -/

/-- The per-student loop of _calculate_total_stats: accumulate the scores
subject by subject, and break with valid=False at the first subject that
is marked absent ('Y') or has a missing score. -/
def student_total_loop (r : StudentRecord) :
    List SubjectConfig → ℚ → ℚ × Bool
  | [], acc => (acc, true)
  | c :: rest, acc =>
    if r.absentFlag c.name == "Y" || (r.score c.name).isNone then (acc, false)
    else student_total_loop r rest (acc + (r.score c.name).getD 0)

/-- The 有效总分 flag of one student. -/
def valid_total (subjects : List SubjectConfig) (r : StudentRecord) : Bool :=
  (student_total_loop r subjects 0).2

/-- The 总分 column of one student: the accumulated total when valid,
otherwise 0. -/
def stored_total (subjects : List SubjectConfig) (r : StudentRecord) : ℚ :=
  if valid_total subjects r then (student_total_loop r subjects 0).1 else 0

/-- The 总分 series over the valid students only. -/
def total_scores (subjects : List SubjectConfig) (df : List StudentRecord) :
    List ℚ :=
  (df.filter (fun r => valid_total subjects r)).map
    (fun r => stored_total subjects r)

/-- _calculate_total_stats.  With an empty registry the source raises
ZeroDivisionError at the avg_pass_percent division, modelled by none.
The top30 branch differs from the subject calculator: only
top30_count > 0 is tested. -/
def calculate_total_stats (subjects : List SubjectConfig)
    (schools : List String) (df : List StudentRecord) : Option SubjectStats :=
  if subjects.length = 0 then none
  else
    let total_max_score := (subjects.map (fun s => s.max_score)).sum
    let avg_pass_percent :=
      (subjects.map (fun s => s.pass_percent)).sum / (subjects.length : ℚ)
    let avg_excellence_percent :=
      (subjects.map (fun s => s.excellence_percent)).sum / (subjects.length : ℚ)
    let pass_line := total_max_score * avg_pass_percent / 100
    let excellence_line := total_max_score * avg_excellence_percent / 100
    let valid_students := df.filter (fun r => valid_total subjects r)
    let all_scores := valid_students.map (fun r => stored_total subjects r)
    let total_count := all_scores.length
    if total_count = 0 then
      some { data := [], pass_line := pass_line,
             excellence_line := excellence_line,
             top30_line := none, bottom20_line := none, max_score := none }
    else
      let sorted_scores := sortDesc all_scores
      let top30_count := 3 * total_count / 10
      let top30_line :=
        if 0 < top30_count then sorted_scores.getD (top30_count - 1) 0
        else listMax sorted_scores
      let top80_count := 4 * total_count / 5
      let bottom20_line :=
        if top80_count < total_count then sorted_scores.getD top80_count 0
        else listMin sorted_scores
      let school_rows := schools.filterMap (fun school =>
        let school_scores := (valid_students.filter
          (fun r => r.school == school)).map (fun r => stored_total subjects r)
        if school_scores.length = 0 then none
        else some (mk_school_row school school_scores pass_line
          excellence_line top30_line bottom20_line))
      some
        { data := assignRanks school_rows ++
            [mk_school_row "全区" all_scores pass_line excellence_line top30_line bottom20_line],
          pass_line := pass_line, excellence_line := excellence_line,
          top30_line := some top30_line, bottom20_line := some bottom20_line,
          max_score := some total_max_score }

/-! ## Analysis generator (_get_performance_level, _generate_recommendations,
_analyze_schools) -/

/-- _get_performance_level: threshold cascade, first match wins. -/
def get_performance_level (pass_rate excellence_rate : ℚ) : String :=
  if pass_rate ≥ 85 ∧ excellence_rate ≥ 20 then "优秀"
  else if pass_rate ≥ 75 ∧ excellence_rate ≥ 10 then "良好"
  else if pass_rate ≥ 60 ∧ excellence_rate ≥ 5 then "中等"
  else "需要改进"

/-- One recommendation.  The source emits a dict with keys type, level and
a formatted content sentence; the content is presentation-only and is
represented here by the entity (metric, subject or school name) that the
sentence is about. -/
structure Recommendation where
  type : String
  level : String
  about : String
deriving DecidableEq, Repr

/-- The state the analysis functions read: self.subjects (the subject
iteration order) and self.statistics (a dict keyed by subject name plus
the key 总分). -/
structure AnalysisInput where
  subjects : List String
  stats : List (String × SubjectStats)

/-- stats[stats['学校'] == '全区'].iloc[0]: the district-wide row; none
models the IndexError on an empty selection. -/
def district_row_of (st : SubjectStats) : Option SchoolAggregate :=
  st.data.find? (fun a => a.school == "全区")

/-- The per-subject loop of _generate_recommendations: for each subject
whose district-wide pass rate is below 60 emit an urgent per-subject
recommendation; a missing dict entry or district row is a KeyError /
IndexError, modelled by none. -/
def subject_recs (stats : List (String × SubjectStats)) :
    List String → Option (List Recommendation)
  | [] => some []
  | s :: rest => do
    let st ← stats.lookup s
    let d ← district_row_of st
    let tail ← subject_recs stats rest
    pure ((if d.pass_rate < 60 then
      [({ type := "科目建议", level := "紧急", about := s } : Recommendation)]
      else []) ++ tail)

/-- _generate_recommendations: overall rules (pass rate below 70,
excellence rate below 10), then the per-subject rule, then the rule over
the three schools with the smallest total average (nsmallest(3, 平均分):
stable ascending sort, first three) whose 后20% exceeds 30. -/
def generate_recommendations (inp : AnalysisInput) :
    Option (List Recommendation) := do
  let total_stats ← inp.stats.lookup "总分"
  let all_data ← district_row_of total_stats
  let r1 := if all_data.pass_rate < 70 then
    [({ type := "整体建议", level := "重要", about := "合格率" } : Recommendation)]
    else []
  let r2 := if all_data.excellence_rate < 10 then
    [({ type := "整体建议", level := "重要", about := "优秀率" } : Recommendation)]
    else []
  let r3 ← subject_recs inp.stats inp.subjects
  let school_rows := total_stats.data.filter (fun a => a.school != "全区")
  let bottom_schools :=
    (ssort (fun a b => decide (a.avg_score ≤ b.avg_score)) school_rows).take 3
  let r4 := (bottom_schools.filter (fun a => decide (30 < a.bottom20_rate))).map
    (fun a => ({ type := "学校建议", level := "关注", about := a.school } : Recommendation))
  pure (r1 ++ r2 ++ r3 ++ r4)

/-- One entry of the subject_avgs list of _analyze_schools: subject name,
the school's average in that subject and the school's 平均分排序 rank
there.  School rows always carry a rank, so getD 0 never fires in the
pipeline. -/
structure SubjAvg where
  subject : String
  avg : ℚ
  rank : ℕ
deriving DecidableEq, Repr

/-- The subject_avgs loop of _analyze_schools: iterate the subjects in
order, keeping those whose statistics table has a row for this school. -/
def subject_avgs_for (stats : List (String × SubjectStats)) (school : String) :
    List String → Option (List SubjAvg)
  | [] => some []
  | s :: rest => do
    let st ← stats.lookup s
    let tail ← subject_avgs_for stats school rest
    match st.data.find? (fun a => a.school == school) with
    | none => pure tail
    | some row =>
      pure (SubjAvg.mk s row.avg_score (row.avg_rank.getD 0) :: tail)

/-- One entry of the per-school analysis list (summary sentence omitted:
presentation only). -/
structure SchoolAnalysis where
  school : String
  total_avg : ℚ
  total_rank : Option ℕ
  pass_rate : ℚ
  excellence_rate : ℚ
  top30_rate : ℚ
  bottom20_rate : ℚ
  avg_rank : ℚ
  strength_subject : Option String
  strength_avg : Option ℚ
  weakness_subject : Option String
  weakness_avg : Option ℚ
deriving DecidableEq, Repr

/-- The body of the per-school loop of _analyze_schools: sort the
subject_avgs list by rank (Python list.sort, stable ascending) and take
its first element as the strength and its last as the weakness. -/
def mk_school_analysis (row : SchoolAggregate) (savgs : List SubjAvg) :
    SchoolAnalysis :=
  let sorted := ssort (fun a b => decide (a.rank ≤ b.rank)) savgs
  { school := row.school
    total_avg := row.avg_score
    total_rank := row.avg_rank
    pass_rate := row.pass_rate
    excellence_rate := row.excellence_rate
    top30_rate := row.top30_rate
    bottom20_rate := row.bottom20_rate
    avg_rank := if savgs.isEmpty then 0
      else (savgs.map (fun x => (x.rank : ℚ))).sum / (savgs.length : ℚ)
    strength_subject := sorted.head?.map (fun x => x.subject)
    strength_avg := sorted.head?.map (fun x => x.avg)
    weakness_subject := sorted.getLast?.map (fun x => x.subject)
    weakness_avg := sorted.getLast?.map (fun x => x.avg) }

/-- The per-school loop of _analyze_schools over the school rows of the
total statistics. -/
def analyze_school_rows (stats : List (String × SubjectStats))
    (subjects : List String) :
    List SchoolAggregate → Option (List SchoolAnalysis)
  | [] => some []
  | row :: rest => do
    let savgs ← subject_avgs_for stats row.school subjects
    let tail ← analyze_school_rows stats subjects rest
    pure (mk_school_analysis row savgs :: tail)

/-- _analyze_schools. -/
def analyze_schools (inp : AnalysisInput) : Option (List SchoolAnalysis) := do
  let total_stats ← inp.stats.lookup "总分"
  analyze_school_rows inp.stats inp.subjects
    (total_stats.data.filter (fun a => a.school != "全区"))

/-! ## Specification-side definitions

These definitions transcribe the words of the specification (not the
source); the theorems below compare the source embedding against them. -/

/-- Spec wording for the top30 cutoff: the score at 1-indexed rank
floor(n*0.3) of the descending sort when that rank is at least 1,
otherwise the maximum eligible score. -/
def spec_top30_line (scores : List ℚ) : ℚ :=
  if 1 ≤ 3 * scores.length / 10 then
    (sortDesc scores).getD (3 * scores.length / 10 - 1) 0
  else listMax scores

/-- Spec wording for the bottom20 cutoff: the score at 0-indexed position
floor(n*0.8) of the descending sort when that position is a valid index,
otherwise the minimum eligible score. -/
def spec_bottom20_line (scores : List ℚ) : ℚ :=
  if 4 * scores.length / 5 < scores.length then
    (sortDesc scores).getD (4 * scores.length / 5) 0
  else listMin scores

/-- Spec wording for the strongest subject: the earliest entry in
iteration order among those of minimal rank. -/
def spec_strongest : List SubjAvg → Option SubjAvg
  | [] => none
  | x :: xs =>
    match spec_strongest xs with
    | none => some x
    | some m => if x.rank ≤ m.rank then some x else some m

/-- The weakest subject as the source computes it: the latest entry in
iteration order among those of maximal rank. -/
def spec_weakest : List SubjAvg → Option SubjAvg
  | [] => none
  | x :: xs =>
    match spec_weakest xs with
    | none => some x
    | some m => if m.rank < x.rank then some x else some m

/-! ## Concrete fixtures used to exercise the theorems -/

/-- Fixture: the Math subject of the specification example (max 150,
pass 60%, excellence 80%). -/
def mathConfig : SubjectConfig :=
  { name := "数学", max_score := 150, pass_percent := 60, excellence_percent := 80 }

/-- Fixture: a present student of a school with the same score everywhere. -/
def demoStudent (school : String) (sc : ℚ) : StudentRecord :=
  { school := school, absentFlag := fun _ => "N", score := fun _ => some sc }

/-- Fixture: a student marked absent in every subject. -/
def absentStudent : StudentRecord :=
  { school := "一中", absentFlag := fun _ => "Y", score := fun _ => some 0 }

/-- Fixture: the ten students of the specification example, split over two
schools. -/
def demoDF : List StudentRecord :=
  [demoStudent "一中" 150, demoStudent "一中" 140, demoStudent "一中" 130,
   demoStudent "一中" 120, demoStudent "一中" 110, demoStudent "二中" 100,
   demoStudent "二中" 90, demoStudent "二中" 80, demoStudent "二中" 70,
   demoStudent "二中" 60]

/-- Fixture: an aggregate row with a given school, average and rank. -/
def demoRow (school : String) (avg : ℚ) (rank : Option ℕ) : SchoolAggregate :=
  { school := school, count := 1, pass_rate := 100, excellence_rate := 50,
    avg_score := avg, bottom20_rate := 0, top30_rate := 100,
    pass_rank := rank, excellence_rank := rank, avg_rank := rank,
    bottom20_rank := rank, top30_rank := rank }

/-- Fixture: a statistics value around a given row list. -/
def demoSubjectStats (rows : List SchoolAggregate) : SubjectStats :=
  { data := rows, pass_line := 90, excellence_line := 120,
    top30_line := some 130, bottom20_line := some 70, max_score := some 150 }

/-- Fixture for the school analysis: two subjects A and B whose average
rank for school 一中 ties at 1. -/
def tieInput : AnalysisInput :=
  { subjects := ["A", "B"],
    stats := [("A", demoSubjectStats [demoRow "一中" 90 (some 1)]),
      ("B", demoSubjectStats [demoRow "一中" 85 (some 1)]),
      ("总分", demoSubjectStats
        [demoRow "一中" 175 (some 1), demoRow "全区" 175 none])] }

/-- Fixture: an aggregate row with chosen pass rate, excellence rate,
bottom-20 share and average. -/
def recRow (school : String) (pr er b20 avg : ℚ) (rank : Option ℕ) :
    SchoolAggregate :=
  { school := school, count := 1, pass_rate := pr, excellence_rate := er,
    avg_score := avg, bottom20_rate := b20, top30_rate := 50,
    pass_rank := rank, excellence_rank := rank, avg_rank := rank,
    bottom20_rank := rank, top30_rank := rank }

/-- Fixture for the recommendation rules: every rule fires once. -/
def recInput : AnalysisInput :=
  { subjects := ["A"],
    stats := [("A", demoSubjectStats [recRow "全区" 50 5 0 60 none]),
      ("总分", demoSubjectStats
        [recRow "一中" 60 5 40 100 (some 1), recRow "全区" 60 5 40 100 none])] }

/-! ## Theorems -/

theorem insLe_perm {α : Type} (le : α → α → Bool) (x : α) (l : List α) :
    (insLe le x l).Perm (x :: l) := by
  induction l with
  | nil => simp [insLe]
  | cons y ys ih =>
    simp only [insLe]
    split
    · exact List.Perm.refl _
    · exact (ih.cons y).trans (List.Perm.swap x y ys)

theorem ssort_perm {α : Type} (le : α → α → Bool) (l : List α) :
    (ssort le l).Perm l := by
  induction l with
  | nil => simp [ssort]
  | cons x xs ih => exact (insLe_perm le x (ssort le xs)).trans (ih.cons x)

theorem ssort_eq_nil_iff {α : Type} (le : α → α → Bool) (l : List α) :
    ssort le l = [] ↔ l = [] := by
  constructor
  · intro h
    have hp := ssort_perm le l
    rw [h] at hp
    exact hp.symm.eq_nil
  · intro h
    subst h
    rfl

theorem insLe_ne_nil {α : Type} (le : α → α → Bool) (x : α) (l : List α) :
    insLe le x l ≠ [] := by
  cases l with
  | nil => simp [insLe]
  | cons y ys =>
    simp only [insLe]
    split <;> simp

theorem pairwise_insLe {α : Type} (le : α → α → Bool)
    (total : ∀ a b, le a b = false → le b a = true)
    (htrans : ∀ a b c, le a b = true → le b c = true → le a c = true)
    (x : α) (l : List α) (h : l.Pairwise (fun a b => le a b = true)) :
    (insLe le x l).Pairwise (fun a b => le a b = true) := by
  induction l with
  | nil => simp [insLe]
  | cons y ys ih =>
    rcases List.pairwise_cons.mp h with ⟨hy, hys⟩
    simp only [insLe]
    by_cases hxy : le x y = true
    · rw [if_pos hxy]
      refine List.pairwise_cons.mpr ⟨?_, h⟩
      intro b hb
      rcases List.mem_cons.mp hb with rfl | hb
      · exact hxy
      · exact htrans x y b hxy (hy b hb)
    · rw [if_neg hxy]
      refine List.pairwise_cons.mpr ⟨?_, ih hys⟩
      intro b hb
      have hmem := (insLe_perm le x ys).mem_iff.mp hb
      rcases List.mem_cons.mp hmem with rfl | hb2
      · exact total _ y (by simpa using hxy)
      · exact hy b hb2

theorem pairwise_ssort {α : Type} (le : α → α → Bool)
    (total : ∀ a b, le a b = false → le b a = true)
    (htrans : ∀ a b c, le a b = true → le b c = true → le a c = true)
    (l : List α) :
    (ssort le l).Pairwise (fun a b => le a b = true) := by
  induction l with
  | nil => simp [ssort]
  | cons x xs ih => exact pairwise_insLe le total htrans x (ssort le xs) ih

theorem sortDesc_perm (l : List ℚ) : (sortDesc l).Perm l :=
  ssort_perm _ l

theorem sortAsc_perm (l : List ℚ) : (sortAsc l).Perm l :=
  ssort_perm _ l

theorem sortDesc_pairwise (l : List ℚ) :
    (sortDesc l).Pairwise (fun a b => b ≤ a) := by
  have h := pairwise_ssort (fun a b : ℚ => decide (b ≤ a))
    (fun a b hab => by
      simp only [decide_eq_false_iff_not] at hab
      simpa using le_of_not_le hab)
    (fun a b c hab hbc => by
      simp only [decide_eq_true_eq] at hab hbc ⊢
      exact hbc.trans hab) l
  exact h.imp (fun hab => of_decide_eq_true hab)

theorem sortAsc_pairwise (l : List ℚ) :
    (sortAsc l).Pairwise (fun a b => a ≤ b) := by
  have h := pairwise_ssort (fun a b : ℚ => decide (a ≤ b))
    (fun a b hab => by
      simp only [decide_eq_false_iff_not] at hab
      simpa using le_of_not_le hab)
    (fun a b c hab hbc => by
      simp only [decide_eq_true_eq] at hab hbc ⊢
      exact hab.trans hbc) l
  exact h.imp (fun hab => of_decide_eq_true hab)

/-- In a non-increasing list, the index of the first occurrence of a member
is the number of entries strictly above it. -/
theorem findIdx_sorted_desc (v : ℚ) :
    ∀ s : List ℚ, s.Pairwise (fun a b => b ≤ a) → v ∈ s →
      s.findIdx (fun w => decide (w = v)) = s.countP (fun w => decide (v < w)) := by
  intro s
  induction s with
  | nil => intro _ h; cases h
  | cons w t ih =>
    intro hp hv
    rcases List.pairwise_cons.mp hp with ⟨hw, ht⟩
    by_cases hwv : w = v
    · subst hwv
      have h0 : ∀ u ∈ w :: t, ¬ (decide (w < u) = true) := by
        intro u hu
        rcases List.mem_cons.mp hu with rfl | hu
        · simp
        · simp only [decide_eq_true_eq, not_lt]
          exact hw u hu
      rw [List.countP_eq_zero.mpr h0]
      simp [List.findIdx_cons]
    · have hvt : v ∈ t := by
        rcases List.mem_cons.mp hv with rfl | h
        · exact absurd rfl hwv
        · exact h
      have hlt : v < w := lt_of_le_of_ne (hw v hvt) (fun h => hwv h.symm)
      rw [List.findIdx_cons, List.countP_cons, ih ht hvt]
      simp [hwv, hlt]

/-- In a non-decreasing list, the index of the first occurrence of a member
is the number of entries strictly below it. -/
theorem findIdx_sorted_asc (v : ℚ) :
    ∀ s : List ℚ, s.Pairwise (fun a b => a ≤ b) → v ∈ s →
      s.findIdx (fun w => decide (w = v)) = s.countP (fun w => decide (w < v)) := by
  intro s
  induction s with
  | nil => intro _ h; cases h
  | cons w t ih =>
    intro hp hv
    rcases List.pairwise_cons.mp hp with ⟨hw, ht⟩
    by_cases hwv : w = v
    · subst hwv
      have h0 : ∀ u ∈ w :: t, ¬ (decide (u < w) = true) := by
        intro u hu
        rcases List.mem_cons.mp hu with rfl | hu
        · simp
        · simp only [decide_eq_true_eq, not_lt]
          exact hw u hu
      rw [List.countP_eq_zero.mpr h0]
      simp [List.findIdx_cons]
    · have hvt : v ∈ t := by
        rcases List.mem_cons.mp hv with rfl | h
        · exact absurd rfl hwv
        · exact h
      have hlt : w < v := lt_of_le_of_ne (hw v hvt) hwv
      rw [List.findIdx_cons, List.countP_cons, ih ht hvt]
      simp [hwv, hlt]

theorem rank_min_desc_eq (vals : List ℚ) (v : ℚ) (hv : v ∈ vals) :
    rank_min false vals v = 1 + vals.countP (fun w => decide (v < w)) := by
  unfold rank_min
  simp only [Bool.false_eq_true, if_false]
  rw [findIdx_sorted_desc v (sortDesc vals) (sortDesc_pairwise vals)
      ((sortDesc_perm vals).mem_iff.mpr hv),
    (sortDesc_perm vals).countP_eq]

theorem rank_min_asc_eq (vals : List ℚ) (v : ℚ) (hv : v ∈ vals) :
    rank_min true vals v = 1 + vals.countP (fun w => decide (w < v)) := by
  unfold rank_min
  simp only [if_true]
  rw [findIdx_sorted_asc v (sortAsc vals) (sortAsc_pairwise vals)
      ((sortAsc_perm vals).mem_iff.mpr hv),
    (sortAsc_perm vals).countP_eq]

theorem foldl_max_init_le : ∀ (l : List ℚ) (a : ℚ), a ≤ l.foldl max a := by
  intro l
  induction l with
  | nil => intro a; simp
  | cons x xs ih =>
    intro a
    calc a ≤ max a x := le_max_left a x
      _ ≤ xs.foldl max (max a x) := ih (max a x)

theorem le_foldl_max_of_mem : ∀ (l : List ℚ) (a x : ℚ), x ∈ l → x ≤ l.foldl max a := by
  intro l
  induction l with
  | nil => intro a x h; cases h
  | cons y ys ih =>
    intro a x h
    rcases List.mem_cons.mp h with rfl | h
    · calc x ≤ max a x := le_max_right a x
        _ ≤ ys.foldl max (max a x) := foldl_max_init_le ys (max a x)
    · exact ih (max a y) x h

theorem foldl_max_mem : ∀ (l : List ℚ) (a : ℚ), l.foldl max a = a ∨ l.foldl max a ∈ l := by
  intro l
  induction l with
  | nil => intro a; left; rfl
  | cons y ys ih =>
    intro a
    rcases ih (max a y) with h | h
    · rcases max_choice a y with hm | hm
      · left
        rw [List.foldl_cons, h, hm]
      · right
        rw [List.foldl_cons, h, hm]
        exact List.mem_cons_self y ys
    · right
      exact List.mem_cons_of_mem y h

theorem listMax_mem (l : List ℚ) (h : l ≠ []) : listMax l ∈ l := by
  cases l with
  | nil => exact absurd rfl h
  | cons x xs =>
    rcases foldl_max_mem xs x with h2 | h2
    · rw [listMax, h2]
      exact List.mem_cons_self x xs
    · show xs.foldl max x ∈ x :: xs
      exact List.mem_cons_of_mem x h2

theorem le_listMax (l : List ℚ) (x : ℚ) (h : x ∈ l) : x ≤ listMax l := by
  cases l with
  | nil => cases h
  | cons y ys =>
    rcases List.mem_cons.mp h with rfl | h2
    · exact foldl_max_init_le ys x
    · exact le_foldl_max_of_mem ys y x h2

theorem listMax_perm (l₁ l₂ : List ℚ) (h : l₁.Perm l₂) : listMax l₁ = listMax l₂ := by
  cases l₁ with
  | nil =>
    rw [h.symm.eq_nil]
  | cons x xs =>
    have h2 : l₂ ≠ [] := by
      intro hc
      subst hc
      exact absurd h.eq_nil (by simp)
    apply le_antisymm
    · exact le_listMax l₂ _ (h.mem_iff.mp (listMax_mem (x :: xs) (by simp)))
    · exact le_listMax (x :: xs) _ (h.mem_iff.mpr (listMax_mem l₂ h2))

theorem foldl_min_le_init : ∀ (l : List ℚ) (a : ℚ), l.foldl min a ≤ a := by
  intro l
  induction l with
  | nil => intro a; simp
  | cons x xs ih =>
    intro a
    calc xs.foldl min (min a x) ≤ min a x := ih (min a x)
      _ ≤ a := min_le_left a x

theorem foldl_min_le_of_mem : ∀ (l : List ℚ) (a x : ℚ), x ∈ l → l.foldl min a ≤ x := by
  intro l
  induction l with
  | nil => intro a x h; cases h
  | cons y ys ih =>
    intro a x h
    rcases List.mem_cons.mp h with rfl | h
    · calc ys.foldl min (min a x) ≤ min a x := foldl_min_le_init ys (min a x)
        _ ≤ x := min_le_right a x
    · exact ih (min a y) x h

theorem foldl_min_mem : ∀ (l : List ℚ) (a : ℚ), l.foldl min a = a ∨ l.foldl min a ∈ l := by
  intro l
  induction l with
  | nil => intro a; left; rfl
  | cons y ys ih =>
    intro a
    rcases ih (min a y) with h | h
    · rcases min_choice a y with hm | hm
      · left
        rw [List.foldl_cons, h, hm]
      · right
        rw [List.foldl_cons, h, hm]
        exact List.mem_cons_self y ys
    · right
      exact List.mem_cons_of_mem y h

theorem listMin_mem (l : List ℚ) (h : l ≠ []) : listMin l ∈ l := by
  cases l with
  | nil => exact absurd rfl h
  | cons x xs =>
    rcases foldl_min_mem xs x with h2 | h2
    · rw [listMin, h2]
      exact List.mem_cons_self x xs
    · show xs.foldl min x ∈ x :: xs
      exact List.mem_cons_of_mem x h2

theorem listMin_le (l : List ℚ) (x : ℚ) (h : x ∈ l) : listMin l ≤ x := by
  cases l with
  | nil => cases h
  | cons y ys =>
    rcases List.mem_cons.mp h with rfl | h2
    · exact foldl_min_le_init ys x
    · exact foldl_min_le_of_mem ys y x h2

theorem listMin_perm (l₁ l₂ : List ℚ) (h : l₁.Perm l₂) : listMin l₁ = listMin l₂ := by
  cases l₁ with
  | nil =>
    rw [h.symm.eq_nil]
  | cons x xs =>
    have h2 : l₂ ≠ [] := by
      intro hc
      subst hc
      exact absurd h.eq_nil (by simp)
    apply le_antisymm
    · exact listMin_le (x :: xs) _ (h.mem_iff.mpr (listMin_mem l₂ h2))
    · exact listMin_le l₂ _ (h.mem_iff.mp (listMin_mem (x :: xs) (by simp)))

theorem spec_strongest_ne_none (x : SubjAvg) (xs : List SubjAvg) :
    spec_strongest (x :: xs) ≠ none := by
  simp only [spec_strongest]
  cases spec_strongest xs with
  | none => simp
  | some m => by_cases h : x.rank ≤ m.rank <;> simp [h]

theorem spec_weakest_ne_none (x : SubjAvg) (xs : List SubjAvg) :
    spec_weakest (x :: xs) ≠ none := by
  simp only [spec_weakest]
  cases spec_weakest xs with
  | none => simp
  | some m => by_cases h : m.rank < x.rank <;> simp [h]

/-- spec_strongest returns a member of minimal rank. -/
theorem spec_strongest_spec :
    ∀ (l : List SubjAvg) (m : SubjAvg), spec_strongest l = some m →
      m ∈ l ∧ ∀ b ∈ l, m.rank ≤ b.rank := by
  intro l
  induction l with
  | nil => intro m h; cases h
  | cons x xs ih =>
    intro m h
    cases hxs : spec_strongest xs with
    | none =>
      have hred : spec_strongest (x :: xs) = some x := by
        simp [spec_strongest, hxs]
      rw [hred] at h
      simp only [Option.some.injEq] at h
      subst h
      have hnil : xs = [] := by
        cases xs with
        | nil => rfl
        | cons y ys => exact absurd hxs (spec_strongest_ne_none y ys)
      subst hnil
      refine ⟨List.mem_cons_self _ _, ?_⟩
      intro b hb
      rcases List.mem_cons.mp hb with rfl | hb
      · exact le_refl _
      · cases hb
    | some m0 =>
      obtain ⟨hmem, hmin⟩ := ih m0 hxs
      by_cases hx : x.rank ≤ m0.rank
      · have hred : spec_strongest (x :: xs) = some x := by
          simp [spec_strongest, hxs, hx]
        rw [hred] at h
        simp only [Option.some.injEq] at h
        subst h
        refine ⟨List.mem_cons_self _ _, ?_⟩
        intro b hb
        rcases List.mem_cons.mp hb with rfl | hb
        · exact le_refl _
        · exact hx.trans (hmin b hb)
      · have hred : spec_strongest (x :: xs) = some m0 := by
          simp [spec_strongest, hxs, hx]
        rw [hred] at h
        simp only [Option.some.injEq] at h
        subst h
        refine ⟨List.mem_cons_of_mem x hmem, ?_⟩
        intro b hb
        rcases List.mem_cons.mp hb with rfl | hb
        · exact le_of_lt (Nat.lt_of_not_le hx)
        · exact hmin b hb

/-- spec_weakest returns a member of maximal rank. -/
theorem spec_weakest_spec :
    ∀ (l : List SubjAvg) (m : SubjAvg), spec_weakest l = some m →
      m ∈ l ∧ ∀ b ∈ l, b.rank ≤ m.rank := by
  intro l
  induction l with
  | nil => intro m h; cases h
  | cons x xs ih =>
    intro m h
    cases hxs : spec_weakest xs with
    | none =>
      have hred : spec_weakest (x :: xs) = some x := by
        simp [spec_weakest, hxs]
      rw [hred] at h
      simp only [Option.some.injEq] at h
      subst h
      have hnil : xs = [] := by
        cases xs with
        | nil => rfl
        | cons y ys => exact absurd hxs (spec_weakest_ne_none y ys)
      subst hnil
      refine ⟨List.mem_cons_self _ _, ?_⟩
      intro b hb
      rcases List.mem_cons.mp hb with rfl | hb
      · exact le_refl _
      · cases hb
    | some m0 =>
      obtain ⟨hmem, hmax⟩ := ih m0 hxs
      by_cases hx : m0.rank < x.rank
      · have hred : spec_weakest (x :: xs) = some x := by
          simp [spec_weakest, hxs, hx]
        rw [hred] at h
        simp only [Option.some.injEq] at h
        subst h
        refine ⟨List.mem_cons_self _ _, ?_⟩
        intro b hb
        rcases List.mem_cons.mp hb with rfl | hb
        · exact le_refl _
        · exact (hmax b hb).trans (le_of_lt hx)
      · have hred : spec_weakest (x :: xs) = some m0 := by
          simp [spec_weakest, hxs, hx]
        rw [hred] at h
        simp only [Option.some.injEq] at h
        subst h
        refine ⟨List.mem_cons_of_mem x hmem, ?_⟩
        intro b hb
        rcases List.mem_cons.mp hb with rfl | hb
        · exact Nat.le_of_not_lt hx
        · exact hmax b hb

/-- The head of the stable ascending-by-rank sort is the earliest entry of
minimal rank. -/
theorem head_ssort_rank (l : List SubjAvg) :
    (ssort (fun a b => decide (a.rank ≤ b.rank)) l).head? = spec_strongest l := by
  induction l with
  | nil => rfl
  | cons x xs ih =>
    simp only [ssort]
    cases hs : ssort (fun a b => decide (a.rank ≤ b.rank)) xs with
    | nil =>
      have hxs : xs = [] := (ssort_eq_nil_iff _ xs).mp hs
      subst hxs
      rfl
    | cons y ys =>
      rw [hs] at ih
      have hm : spec_strongest xs = some y := by
        rw [← ih]
        rfl
      simp only [spec_strongest, hm, insLe]
      by_cases hxy : x.rank ≤ y.rank
      · rw [if_pos (by simpa using hxy), if_pos hxy]
        rfl
      · rw [if_neg (by simpa using hxy), if_neg hxy]
        rfl

/-- Where an inserted element ends up at the back: if some element of l
may precede x, the last element of l stays last, otherwise x is last. -/
theorem getLast_insLe {α : Type} (le : α → α → Bool) (x : α) :
    ∀ l : List α, (insLe le x l).getLast? =
      if l.any (fun y => le x y) then l.getLast? else some x := by
  intro l
  induction l with
  | nil => simp [insLe]
  | cons y ys ih =>
    simp only [insLe, List.any_cons]
    by_cases hxy : le x y = true
    · rw [if_pos hxy, if_pos (by simp [hxy])]
      exact List.getLast?_cons_cons
    · have hxy2 : le x y = false := Bool.eq_false_iff.mpr hxy
      rw [if_neg hxy]
      simp only [hxy2, Bool.false_or]
      cases ht : insLe le x ys with
      | nil => exact absurd ht (insLe_ne_nil le x ys)
      | cons z zs =>
        rw [List.getLast?_cons_cons, ← ht, ih]
        by_cases hany : ys.any (fun y => le x y) = true
        · rw [if_pos hany, if_pos hany]
          cases ys with
          | nil => simp at hany
          | cons u us => exact (List.getLast?_cons_cons).symm
        · rw [if_neg hany, if_neg hany]

/-- The last element of the stable ascending-by-rank sort is the latest
entry of maximal rank. -/
theorem getLast_ssort_rank (l : List SubjAvg) :
    (ssort (fun a b => decide (a.rank ≤ b.rank)) l).getLast? = spec_weakest l := by
  induction l with
  | nil => rfl
  | cons x xs ih =>
    simp only [ssort]
    rw [getLast_insLe]
    cases hm : spec_weakest xs with
    | none =>
      have hxs : xs = [] := by
        cases xs with
        | nil => rfl
        | cons y ys => exact absurd hm (spec_weakest_ne_none y ys)
      subst hxs
      simp [ssort, spec_weakest]
    | some m =>
      obtain ⟨hmem, hmax⟩ := spec_weakest_spec xs m hm
      simp only [spec_weakest, hm]
      by_cases hcond : x.rank ≤ m.rank
      · have hany : (ssort (fun a b => decide (a.rank ≤ b.rank)) xs).any
            (fun y => decide (x.rank ≤ y.rank)) = true := by
          refine List.any_eq_true.mpr ⟨m, (ssort_perm _ xs).mem_iff.mpr hmem, ?_⟩
          simpa using hcond
        rw [if_pos hany, ih, hm, if_neg (Nat.not_lt.mpr hcond)]
      · have hany : (ssort (fun a b => decide (a.rank ≤ b.rank)) xs).any
            (fun y => decide (x.rank ≤ y.rank)) = false := by
          apply List.any_eq_false.mpr
          intro y hy
          have hyx : y.rank ≤ m.rank := hmax y ((ssort_perm _ xs).mem_iff.mp hy)
          simp only [decide_eq_true_eq]
          intro hxyle
          exact hcond (hxyle.trans hyx)
        rw [if_neg (by simp [hany]), if_pos (Nat.lt_of_not_le hcond)]

/-! ## The total-score validity rule (claim C1) -/

theorem student_total_loop_valid (r : StudentRecord) :
    ∀ (subjects : List SubjectConfig) (acc : ℚ),
      (student_total_loop r subjects acc).2 = true ↔
        ∀ c ∈ subjects, r.absentFlag c.name ≠ "Y" ∧ (r.score c.name).isSome = true := by
  intro subjects
  induction subjects with
  | nil =>
    intro acc
    simp [student_total_loop]
  | cons c rest ih =>
    intro acc
    simp only [student_total_loop]
    by_cases hc : (r.absentFlag c.name == "Y" || (r.score c.name).isNone) = true
    · rw [if_pos hc]
      refine iff_of_false (by simp) ?_
      intro hall
      obtain ⟨h1, h2⟩ := hall c (List.mem_cons_self c rest)
      rcases Bool.or_eq_true_iff.mp hc with h | h
      · exact h1 (by simpa using h)
      · rw [Option.isNone_iff_eq_none] at h
        rw [h] at h2
        simp at h2
    · rw [if_neg hc]
      rw [ih]
      have hc2 : r.absentFlag c.name ≠ "Y" ∧ (r.score c.name).isSome = true := by
        have := Bool.eq_false_iff.mpr hc
        rcases Bool.or_eq_false_iff.mp this with ⟨ha, hb⟩
        constructor
        · simpa using ha
        · simpa [Option.isSome_iff_ne_none] using hb
      constructor
      · intro hall c2 hc2m
        rcases List.mem_cons.mp hc2m with rfl | hm
        · exact hc2
        · exact hall c2 hm
      · intro hall c2 hm
        exact hall c2 (List.mem_cons_of_mem c hm)

theorem student_total_loop_sum (r : StudentRecord) :
    ∀ (subjects : List SubjectConfig) (acc : ℚ),
      (student_total_loop r subjects acc).2 = true →
      (student_total_loop r subjects acc).1 =
        acc + (subjects.map (fun c => (r.score c.name).getD 0)).sum := by
  intro subjects
  induction subjects with
  | nil =>
    intro acc _
    simp [student_total_loop]
  | cons c rest ih =>
    intro acc hv
    simp only [student_total_loop] at hv ⊢
    by_cases hc : (r.absentFlag c.name == "Y" || (r.score c.name).isNone) = true
    · rw [if_pos hc] at hv
      simp at hv
    · rw [if_neg hc] at hv ⊢
      rw [ih _ hv]
      simp only [List.map_cons, List.sum_cons]
      ring

/-- C1: a student's combined total is valid iff the student is neither
marked absent nor missing a score in every configured subject; a valid
student's stored 总分 is the sum of the per-subject scores, an invalid
student's is 0, and the total statistics computed over any dataset equal
those computed over its valid students only (invalid students contribute
to no aggregate while staying in the dataset). -/
theorem total_validity_spec :
    (∀ (subjects : List SubjectConfig) (r : StudentRecord),
       valid_total subjects r = true ↔
         ∀ c ∈ subjects,
           r.absentFlag c.name ≠ "Y" ∧ (r.score c.name).isSome = true)
    ∧ (∀ (subjects : List SubjectConfig) (r : StudentRecord),
         valid_total subjects r = true →
         stored_total subjects r =
           (subjects.map (fun c => (r.score c.name).getD 0)).sum)
    ∧ (∀ (subjects : List SubjectConfig) (r : StudentRecord),
         valid_total subjects r = false → stored_total subjects r = 0)
    ∧ (∀ (subjects : List SubjectConfig) (schools : List String)
         (df : List StudentRecord),
         calculate_total_stats subjects schools df =
           calculate_total_stats subjects schools
             (df.filter (fun r => valid_total subjects r))) := by
  refine ⟨?_, ?_, ?_, ?_⟩
  · intro subjects r
    exact student_total_loop_valid r subjects 0
  · intro subjects r hv
    rw [stored_total, if_pos hv, student_total_loop_sum r subjects 0 hv]
    simp
  · intro subjects r hv
    rw [stored_total, if_neg (by simp [hv])]
  · intro subjects schools df
    have hff : (df.filter (fun r => valid_total subjects r)).filter
        (fun r => valid_total subjects r) =
        df.filter (fun r => valid_total subjects r) := by
      rw [List.filter_filter]
      apply List.filter_congr
      intro a _
      simp
    simp only [calculate_total_stats, hff]

/-- Witness for C1 at a concrete input: the all-present student is valid
with total 100 + 100, the absent student is invalid with total 0. -/
theorem total_validity_witness :
    valid_total [mathConfig] (demoStudent "一中" 100) = true
    ∧ stored_total [mathConfig] (demoStudent "一中" 100) =
        ([mathConfig].map
          (fun c => ((demoStudent "一中" 100).score c.name).getD 0)).sum
    ∧ stored_total [mathConfig] absentStudent = 0 := by
  refine ⟨by decide, ?_, ?_⟩
  · exact total_validity_spec.2.1 [mathConfig] (demoStudent "一中" 100) (by decide)
  · exact total_validity_spec.2.2.1 [mathConfig] absentStudent (by decide)

/-! ## Order-statistic cutoffs (claims C2 and C3) -/

theorem top30_div_le (n : ℕ) : 3 * n / 10 ≤ n := by
  calc 3 * n / 10 ≤ 10 * n / 10 := Nat.div_le_div_right (by omega)
    _ = n := by omega

/-- C2: over the eligible scores of a subject, and over the valid totals,
top30_line is the score at 1-indexed rank floor(n*0.3) of the descending
sort whenever that rank is at least 1, and otherwise the maximum eligible
score. -/
theorem top30_line_spec :
    (∀ (config : SubjectConfig) (schools : List String)
       (df : List StudentRecord),
       eligibleScores config.name df ≠ [] →
       (calculate_subject_stats config schools df).top30_line =
         some (spec_top30_line (eligibleScores config.name df)))
    ∧ (∀ (subjects : List SubjectConfig) (schools : List String)
         (df : List StudentRecord) (st : SubjectStats),
         calculate_total_stats subjects schools df = some st →
         total_scores subjects df ≠ [] →
         st.top30_line = some (spec_top30_line (total_scores subjects df))) := by
  constructor
  · intro config schools df hne
    have hn : ¬ ((eligibleScores config.name df).length = 0) := by
      simpa [List.length_eq_zero] using hne
    simp only [calculate_subject_stats]
    rw [if_neg hn]
    simp only [spec_top30_line]
    by_cases hk : 0 < 3 * (eligibleScores config.name df).length / 10
    · rw [if_pos (And.intro hk (top30_div_le _)), if_pos (by omega : 1 ≤ _)]
    · rw [if_neg (fun h => hk h.1), if_neg (by omega)]
      exact congrArg some (listMax_perm _ _ (sortDesc_perm _))
  · intro subjects schools df st h hne
    have hn : ¬ ((total_scores subjects df).length = 0) := by
      simpa [List.length_eq_zero] using hne
    by_cases hs : subjects.length = 0
    · rw [calculate_total_stats, if_pos hs] at h
      cases h
    · simp only [calculate_total_stats] at h
      rw [if_neg hs] at h
      have hts : (List.map (fun r => stored_total subjects r)
          (List.filter (fun r => valid_total subjects r) df)) =
          total_scores subjects df := rfl
      rw [hts, if_neg hn] at h
      simp only [Option.some.injEq] at h
      subst h
      simp only [spec_top30_line]
      by_cases hk : 0 < 3 * (total_scores subjects df).length / 10
      · rw [if_pos hk, if_pos (by omega : 1 ≤ _)]
      · rw [if_neg hk, if_neg (by omega)]
        exact congrArg some (listMax_perm _ _ (sortDesc_perm _))

/-- Witness for C2 at the specification example: ten scores 150..60, the
cutoff is the third-highest score, 130. -/
theorem top30_line_witness :
    eligibleScores mathConfig.name demoDF ≠ []
    ∧ (calculate_subject_stats mathConfig ["一中", "二中"] demoDF).top30_line =
        some (spec_top30_line (eligibleScores mathConfig.name demoDF))
    ∧ spec_top30_line (eligibleScores mathConfig.name demoDF) = 130 := by
  refine ⟨by decide,
    top30_line_spec.1 mathConfig ["一中", "二中"] demoDF (by decide), by decide⟩

/-- C3: over the eligible scores of a subject, and over the valid totals,
bottom20_line is the score at 0-indexed position floor(n*0.8) of the
descending sort whenever that position is a valid index, and otherwise the
minimum eligible score. -/
theorem bottom20_line_spec :
    (∀ (config : SubjectConfig) (schools : List String)
       (df : List StudentRecord),
       eligibleScores config.name df ≠ [] →
       (calculate_subject_stats config schools df).bottom20_line =
         some (spec_bottom20_line (eligibleScores config.name df)))
    ∧ (∀ (subjects : List SubjectConfig) (schools : List String)
         (df : List StudentRecord) (st : SubjectStats),
         calculate_total_stats subjects schools df = some st →
         total_scores subjects df ≠ [] →
         st.bottom20_line =
           some (spec_bottom20_line (total_scores subjects df))) := by
  constructor
  · intro config schools df hne
    have hn : ¬ ((eligibleScores config.name df).length = 0) := by
      simpa [List.length_eq_zero] using hne
    simp only [calculate_subject_stats]
    rw [if_neg hn]
    simp only [spec_bottom20_line]
    by_cases hk : 4 * (eligibleScores config.name df).length / 5 <
        (eligibleScores config.name df).length
    · rw [if_pos hk, if_pos hk]
    · rw [if_neg hk, if_neg hk]
      exact congrArg some (listMin_perm _ _ (sortDesc_perm _))
  · intro subjects schools df st h hne
    have hn : ¬ ((total_scores subjects df).length = 0) := by
      simpa [List.length_eq_zero] using hne
    by_cases hs : subjects.length = 0
    · rw [calculate_total_stats, if_pos hs] at h
      cases h
    · simp only [calculate_total_stats] at h
      rw [if_neg hs] at h
      have hts : (List.map (fun r => stored_total subjects r)
          (List.filter (fun r => valid_total subjects r) df)) =
          total_scores subjects df := rfl
      rw [hts, if_neg hn] at h
      simp only [Option.some.injEq] at h
      subst h
      simp only [spec_bottom20_line]
      by_cases hk : 4 * (total_scores subjects df).length / 5 <
          (total_scores subjects df).length
      · rw [if_pos hk, if_pos hk]
      · rw [if_neg hk, if_neg hk]
        exact congrArg some (listMin_perm _ _ (sortDesc_perm _))

/-- Witness for C3 at the specification example: ten scores 150..60, the
cutoff is the score at 0-indexed position 8 of the descending sort, 70. -/
theorem bottom20_line_witness :
    eligibleScores mathConfig.name demoDF ≠ []
    ∧ (calculate_subject_stats mathConfig ["一中", "二中"] demoDF).bottom20_line =
        some (spec_bottom20_line (eligibleScores mathConfig.name demoDF))
    ∧ spec_bottom20_line (eligibleScores mathConfig.name demoDF) = 70 := by
  refine ⟨by decide,
    bottom20_line_spec.1 mathConfig ["一中", "二中"] demoDF (by decide), by decide⟩

/-! ## Tie-aware competition ranking (claim C4) -/

/-- C4: for each of the five metrics the rank assignment gives every
per-school row rank 1 + the number of rows with a strictly better value
(strictly greater for pass rate, excellence rate, average and top30 rate;
strictly smaller for bottom20 rate), so equal values receive equal ranks;
the district-wide 全区 row is built without ranks. -/
theorem ranking_spec :
    (∀ rows : List SchoolAggregate,
       assignRanks rows = rows.map (fun r =>
         { r with
           pass_rank := some (1 + (rows.filter
             (fun w => decide (r.pass_rate < w.pass_rate))).length)
           excellence_rank := some (1 + (rows.filter
             (fun w => decide (r.excellence_rate < w.excellence_rate))).length)
           avg_rank := some (1 + (rows.filter
             (fun w => decide (r.avg_score < w.avg_score))).length)
           bottom20_rank := some (1 + (rows.filter
             (fun w => decide (w.bottom20_rate < r.bottom20_rate))).length)
           top30_rank := some (1 + (rows.filter
             (fun w => decide (r.top30_rate < w.top30_rate))).length) }))
    ∧ (∀ (school : String) (scores : List ℚ) (pl el t30 b20 : ℚ),
       (mk_school_row school scores pl el t30 b20).pass_rank = none
       ∧ (mk_school_row school scores pl el t30 b20).excellence_rank = none
       ∧ (mk_school_row school scores pl el t30 b20).avg_rank = none
       ∧ (mk_school_row school scores pl el t30 b20).bottom20_rank = none
       ∧ (mk_school_row school scores pl el t30 b20).top30_rank = none) := by
  constructor
  · intro rows
    simp only [assignRanks]
    apply List.map_congr_left
    intro r hr
    rw [rank_min_desc_eq _ _ (List.mem_map_of_mem _ hr),
      rank_min_desc_eq _ _ (List.mem_map_of_mem _ hr),
      rank_min_desc_eq _ _ (List.mem_map_of_mem _ hr),
      rank_min_asc_eq _ _ (List.mem_map_of_mem _ hr),
      rank_min_desc_eq _ _ (List.mem_map_of_mem _ hr)]
    simp only [List.countP_map]
    simp only [List.countP_eq_length_filter]
    simp only [Function.comp_def]
  · intro school scores pl el t30 b20
    exact ⟨rfl, rfl, rfl, rfl, rfl⟩

/-! ## Empty-data sentinel (claim C5) -/

/-- C5: with no eligible student for a subject (and no valid student for
the total, provided the registry is non-empty) the calculators return the
empty-data sentinel: an empty aggregate list, the pass and excellence
lines still computed from the max score and percent settings, and no
percentile lines (hence no ranks), instead of failing. -/
theorem empty_sentinel_spec :
    (∀ (config : SubjectConfig) (schools : List String)
       (df : List StudentRecord),
       eligibleScores config.name df = [] →
       calculate_subject_stats config schools df =
         SubjectStats.mk [] (config.max_score * config.pass_percent / 100)
           (config.max_score * config.excellence_percent / 100)
           none none none)
    ∧ (∀ (subjects : List SubjectConfig) (schools : List String)
         (df : List StudentRecord),
       subjects ≠ [] →
       total_scores subjects df = [] →
       calculate_total_stats subjects schools df =
         some (SubjectStats.mk []
           ((subjects.map (fun s => s.max_score)).sum *
             ((subjects.map (fun s => s.pass_percent)).sum /
               (subjects.length : ℚ)) / 100)
           ((subjects.map (fun s => s.max_score)).sum *
             ((subjects.map (fun s => s.excellence_percent)).sum /
               (subjects.length : ℚ)) / 100)
           none none none)) := by
  constructor
  · intro config schools df h
    simp only [calculate_subject_stats]
    rw [if_pos (by simp [h])]
  · intro subjects schools df hs h
    have hs2 : ¬ (subjects.length = 0) := by
      simpa [List.length_eq_zero] using hs
    simp only [calculate_total_stats]
    rw [if_neg hs2]
    have hts : (List.map (fun r => stored_total subjects r)
        (List.filter (fun r => valid_total subjects r) df)) =
        total_scores subjects df := rfl
    rw [hts, if_pos (by simp [h])]

/-- Witness for C5: a dataset holding one universally absent student has
no eligible scores and no valid total; both calculators return the
sentinel with pass_line 90 and excellence_line 120. -/
theorem empty_sentinel_witness :
    eligibleScores mathConfig.name [absentStudent] = []
    ∧ calculate_subject_stats mathConfig ["一中"] [absentStudent] =
        SubjectStats.mk [] 90 120 none none none
    ∧ calculate_total_stats [mathConfig] ["一中"] [absentStudent] =
        some (SubjectStats.mk [] 90 120 none none none) := by
  refine ⟨by decide, ?_, ?_⟩
  · rw [empty_sentinel_spec.1 mathConfig ["一中"] [absentStudent] (by decide)]
    norm_num [mathConfig]
  · rw [empty_sentinel_spec.2 [mathConfig] ["一中"] [absentStudent]
      (by decide) (by decide)]
    norm_num [mathConfig]

/-! ## The total calculator needs a non-empty registry (claim C10) -/

/-- C10: the total calculator averages the per-subject percent settings by
dividing by the number of configured subjects; with at least one subject
the whole computation is defined and yields a result, while with an empty
registry it fails with the division by zero (modelled by none) instead of
returning the empty-data sentinel. -/
theorem total_requires_subjects :
    (∀ (schools : List String) (df : List StudentRecord),
       calculate_total_stats [] schools df = none)
    ∧ (∀ (subjects : List SubjectConfig) (schools : List String)
         (df : List StudentRecord), subjects ≠ [] →
       ∃ st, calculate_total_stats subjects schools df = some st) := by
  constructor
  · intro schools df
    simp [calculate_total_stats]
  · intro subjects schools df hs
    have hs2 : ¬ (subjects.length = 0) := by
      simpa [List.length_eq_zero] using hs
    simp only [calculate_total_stats]
    rw [if_neg hs2]
    split
    · exact ⟨_, rfl⟩
    · exact ⟨_, rfl⟩

/-- Witness for C10: the empty registry fails, one Math subject succeeds.
-/
theorem total_requires_subjects_witness :
    calculate_total_stats [] ["一中"] demoDF = none
    ∧ ∃ st, calculate_total_stats [mathConfig] ["一中"] demoDF = some st :=
  ⟨total_requires_subjects.1 ["一中"] demoDF,
   total_requires_subjects.2 [mathConfig] ["一中"] demoDF (by decide)⟩

/-! ## Performance level cascade (claim C8) -/

/-- C8: the overall performance level is assigned by the fixed threshold
cascade, first match winning; in particular pass rate 72 with excellence
rate 8 yields 中等 (moderate). -/
theorem performance_level_spec :
    (∀ p e : ℚ,
      (get_performance_level p e = "优秀" ↔ 85 ≤ p ∧ 20 ≤ e)
      ∧ (get_performance_level p e = "良好" ↔
          ¬(85 ≤ p ∧ 20 ≤ e) ∧ (75 ≤ p ∧ 10 ≤ e))
      ∧ (get_performance_level p e = "中等" ↔
          ¬(85 ≤ p ∧ 20 ≤ e) ∧ ¬(75 ≤ p ∧ 10 ≤ e) ∧ (60 ≤ p ∧ 5 ≤ e))
      ∧ (get_performance_level p e = "需要改进" ↔
          ¬(85 ≤ p ∧ 20 ≤ e) ∧ ¬(75 ≤ p ∧ 10 ≤ e) ∧ ¬(60 ≤ p ∧ 5 ≤ e)))
    ∧ get_performance_level 72 8 = "中等" := by
  constructor
  · intro p e
    simp only [get_performance_level, ge_iff_le]
    split_ifs with h1 h2 h3
    · exact ⟨iff_of_true rfl h1,
        iff_of_false (by decide) (fun hc => hc.1 h1),
        iff_of_false (by decide) (fun hc => hc.1 h1),
        iff_of_false (by decide) (fun hc => hc.1 h1)⟩
    · exact ⟨iff_of_false (by decide) h1,
        iff_of_true rfl ⟨h1, h2⟩,
        iff_of_false (by decide) (fun hc => hc.2.1 h2),
        iff_of_false (by decide) (fun hc => hc.2.1 h2)⟩
    · exact ⟨iff_of_false (by decide) h1,
        iff_of_false (by decide) (fun hc => h2 hc.2),
        iff_of_true rfl ⟨h1, h2, h3⟩,
        iff_of_false (by decide) (fun hc => hc.2.2 h3)⟩
    · exact ⟨iff_of_false (by decide) h1,
        iff_of_false (by decide) (fun hc => h2 hc.2),
        iff_of_false (by decide) (fun hc => h3 hc.2.2),
        iff_of_true rfl ⟨h1, h2, h3⟩⟩
  · decide

/-! ## Registry name uniqueness (claim C6, corrected) -/

theorem update_subject_names_mem :
    ∀ (subjects : List SubjectConfig) (name : String) (config : SubjectConfig)
      (x : String),
      x ∈ subject_names (update_subject subjects name config).2 →
      x ∈ subject_names subjects ∨ x = config.name := by
  intro subjects
  induction subjects with
  | nil =>
    intro name config x h
    simp [update_subject, subject_names] at h
  | cons s rest ih =>
    intro name config x h
    simp only [update_subject] at h
    by_cases hs : (s.name == name) = true
    · rw [if_pos hs] at h
      simp only [subject_names, List.map_cons, List.mem_cons] at h ⊢
      rcases h with rfl | h
      · right
        rfl
      · left
        right
        exact h
    · rw [if_neg hs] at h
      simp only [subject_names, List.map_cons, List.mem_cons] at h ⊢
      rcases h with rfl | h
      · left
        left
        rfl
      · rcases ih name config x h with h2 | h2
        · left
          right
          exact h2
        · right
          exact h2

/-- C6 counterexample: update_subject can violate name uniqueness.
Starting from the empty registry, adding A and B and then updating A with
a configuration named B leaves two stored subjects named B. -/
theorem registry_unique_counterexample :
    subject_names (update_subject
      (add_subject (add_subject [] (SubjectConfig.mk "A" 150 60 80)).2
        (SubjectConfig.mk "B" 150 60 80)).2
      "A" (SubjectConfig.mk "B" 100 50 70)).2 = ["B", "B"]
    ∧ ¬ (subject_names (update_subject
      (add_subject (add_subject [] (SubjectConfig.mk "A" 150 60 80)).2
        (SubjectConfig.mk "B" 150 60 80)).2
      "A" (SubjectConfig.mk "B" 100 50 70)).2).Nodup := by
  decide

/-- C6 (amended): add_subject and remove_subject preserve name
uniqueness; add_subject returns false and leaves the registry unchanged
when the name is already present; and update_subject preserves uniqueness
provided the replacement keeps the updated name or its name is not stored
(without that proviso uniqueness can break, see the counterexample). -/
theorem registry_unique_spec :
    (∀ (subjects : List SubjectConfig) (config : SubjectConfig),
       (subject_names subjects).Nodup →
       (subject_names (add_subject subjects config).2).Nodup)
    ∧ (∀ (subjects : List SubjectConfig) (name : String),
       (subject_names subjects).Nodup →
       (subject_names (remove_subject subjects name)).Nodup)
    ∧ (∀ (subjects : List SubjectConfig) (name : String)
         (config : SubjectConfig),
       (subject_names subjects).Nodup →
       (config.name = name ∨ config.name ∉ subject_names subjects) →
       (subject_names (update_subject subjects name config).2).Nodup)
    ∧ (∀ (subjects : List SubjectConfig) (config : SubjectConfig),
       subjects.any (fun s => s.name == config.name) = true →
       add_subject subjects config = (false, subjects)) := by
  refine ⟨?_, ?_, ?_, ?_⟩
  · intro subjects config h
    by_cases hany : subjects.any (fun s => s.name == config.name) = true
    · rw [add_subject, if_pos hany]
      exact h
    · rw [add_subject, if_neg hany]
      simp only [subject_names, List.map_append, List.map_cons, List.map_nil]
      rw [List.nodup_append]
      refine ⟨h, List.nodup_singleton _, ?_⟩
      intro a ha hb
      obtain ⟨s, hsmem, hsname⟩ := List.mem_map.mp ha
      have hne := List.any_eq_false.mp (Bool.eq_false_iff.mpr hany) s hsmem
      simp only [beq_iff_eq] at hne
      simp only [List.mem_singleton] at hb
      exact hne (hsname.trans hb)
  · intro subjects name h
    show (List.map (fun s => s.name)
      (List.filter (fun s => s.name != name) subjects)).Nodup
    exact List.Nodup.sublist
      (List.Sublist.map (fun s => s.name) (List.filter_sublist subjects)) h
  · intro subjects
    induction subjects with
    | nil =>
      intro name config h hc
      simp [update_subject, subject_names]
    | cons s rest ih =>
      intro name config h hc
      have hrest : (subject_names rest).Nodup :=
        (List.nodup_cons.mp (by simpa [subject_names] using h)).2
      have hhead : s.name ∉ subject_names rest :=
        (List.nodup_cons.mp (by simpa [subject_names] using h)).1
      simp only [update_subject]
      by_cases hs : (s.name == name) = true
      · rw [if_pos hs]
        simp only [subject_names, List.map_cons]
        rw [List.nodup_cons]
        refine ⟨?_, hrest⟩
        rcases hc with hc | hc
        · have : config.name = s.name := by
            rw [hc]
            exact (beq_iff_eq.mp hs).symm
          rw [this]
          exact hhead
        · intro hmem
          exact hc (List.mem_cons_of_mem s.name hmem)
      · rw [if_neg hs]
        simp only [subject_names, List.map_cons]
        rw [List.nodup_cons]
        have hc2 : config.name = name ∨ config.name ∉ subject_names rest := by
          rcases hc with hc | hc
          · exact Or.inl hc
          · right
            intro hmem
            exact hc (List.mem_cons_of_mem s.name hmem)
        refine ⟨?_, ih name config hrest hc2⟩
        intro hmem
        rcases update_subject_names_mem rest name config s.name hmem with h2 | h2
        · exact hhead h2
        · rcases hc with hc | hc
          · rw [hc] at h2
            exact hs (beq_iff_eq.mpr h2)
          · exact hc (by
              rw [← h2]
              exact List.mem_cons_self s.name (subject_names rest))
  · intro subjects config h
    rw [add_subject, if_pos h]

/-- Witness for C6 (amended): a name-preserving update keeps uniqueness,
and re-adding a present name is refused without change. -/
theorem registry_unique_witness :
    (subject_names (update_subject [SubjectConfig.mk "A" 150 60 80] "A"
        (SubjectConfig.mk "A" 100 50 70)).2).Nodup
    ∧ add_subject [SubjectConfig.mk "A" 150 60 80]
        (SubjectConfig.mk "A" 100 50 70) =
        (false, [SubjectConfig.mk "A" 150 60 80]) :=
  ⟨registry_unique_spec.2.2.1 [SubjectConfig.mk "A" 150 60 80] "A"
      (SubjectConfig.mk "A" 100 50 70) (by decide) (Or.inl rfl),
   registry_unique_spec.2.2.2 [SubjectConfig.mk "A" 150 60 80]
      (SubjectConfig.mk "A" 100 50 70) (by decide)⟩

/-! ## Recommendation rules (claim C7) -/

theorem subject_recs_eq (stats : List (String × SubjectStats))
    (f : String → SchoolAggregate) :
    ∀ subjects : List String,
      (∀ s ∈ subjects, (stats.lookup s).bind district_row_of = some (f s)) →
      subject_recs stats subjects = some
        ((subjects.filter (fun s => decide ((f s).pass_rate < 60))).map
          (fun s => Recommendation.mk "科目建议" "紧急" s)) := by
  intro subjects
  induction subjects with
  | nil =>
    intro _
    rfl
  | cons s rest ih =>
    intro hall
    obtain ⟨st, hst, hd⟩ :=
      Option.bind_eq_some.mp (hall s (List.mem_cons_self s rest))
    have htail := ih (fun s2 hs2 => hall s2 (List.mem_cons_of_mem s hs2))
    simp only [subject_recs, Option.bind_eq_bind, Option.pure_def, hst,
      Option.some_bind, hd, htail, List.filter_cons]
    by_cases hp : (f s).pass_rate < 60
    · simp [hp]
    · simp [hp]

/-- C7: when the district-wide rows exist, the recommendation list is
exactly the rules that fire, in fixed order: the overall pass-rate rule
(below 70), the overall excellence-rate rule (below 10), one urgent
recommendation per subject in iteration order whose district pass rate is
below 60, then one watch recommendation per school among the three with
the lowest total average whose 后20% share exceeds 30; and when no rule
fires the result is the empty list, present rather than absent. -/
theorem recommendations_spec (inp : AnalysisInput) (ts : SubjectStats)
    (ad : SchoolAggregate) (f : String → SchoolAggregate)
    (h1 : inp.stats.lookup "总分" = some ts)
    (h2 : district_row_of ts = some ad)
    (h3 : ∀ s ∈ inp.subjects,
      (inp.stats.lookup s).bind district_row_of = some (f s)) :
    generate_recommendations inp = some (
      (if ad.pass_rate < 70 then
        [Recommendation.mk "整体建议" "重要" "合格率"] else [])
      ++ (if ad.excellence_rate < 10 then
        [Recommendation.mk "整体建议" "重要" "优秀率"] else [])
      ++ (inp.subjects.filter (fun s => decide ((f s).pass_rate < 60))).map
          (fun s => Recommendation.mk "科目建议" "紧急" s)
      ++ ((((ssort (fun a b => decide (a.avg_score ≤ b.avg_score))
            (ts.data.filter (fun a => a.school != "全区"))).take 3).filter
          (fun a => decide (30 < a.bottom20_rate))).map
          (fun a => Recommendation.mk "学校建议" "关注" a.school)))
    ∧ (¬ ad.pass_rate < 70 → ¬ ad.excellence_rate < 10 →
       (∀ s ∈ inp.subjects, ¬ (f s).pass_rate < 60) →
       (∀ a ∈ (ssort (fun a b => decide (a.avg_score ≤ b.avg_score))
            (ts.data.filter (fun a => a.school != "全区"))).take 3,
          ¬ 30 < a.bottom20_rate) →
       generate_recommendations inp = some []) := by
  have hmain : generate_recommendations inp = some (
      (if ad.pass_rate < 70 then
        [Recommendation.mk "整体建议" "重要" "合格率"] else [])
      ++ (if ad.excellence_rate < 10 then
        [Recommendation.mk "整体建议" "重要" "优秀率"] else [])
      ++ (inp.subjects.filter (fun s => decide ((f s).pass_rate < 60))).map
          (fun s => Recommendation.mk "科目建议" "紧急" s)
      ++ ((((ssort (fun a b => decide (a.avg_score ≤ b.avg_score))
            (ts.data.filter (fun a => a.school != "全区"))).take 3).filter
          (fun a => decide (30 < a.bottom20_rate))).map
          (fun a => Recommendation.mk "学校建议" "关注" a.school))) := by
    simp only [generate_recommendations, Option.bind_eq_bind, Option.pure_def,
      h1, Option.some_bind, h2, subject_recs_eq inp.stats f inp.subjects h3]
  refine ⟨hmain, ?_⟩
  intro hn1 hn2 hn3 hn4
  rw [hmain, if_neg hn1, if_neg hn2]
  rw [List.filter_eq_nil_iff.mpr (fun s hs => by simpa using hn3 s hs)]
  rw [List.filter_eq_nil_iff.mpr (fun a ha => by simpa using hn4 a ha)]
  simp

/-- Witness for C7 at a concrete input where every rule fires once, in
order. -/
theorem recommendations_witness :
    generate_recommendations recInput = some
      [Recommendation.mk "整体建议" "重要" "合格率",
       Recommendation.mk "整体建议" "重要" "优秀率",
       Recommendation.mk "科目建议" "紧急" "A",
       Recommendation.mk "学校建议" "关注" "一中"] := by
  rw [(recommendations_spec recInput (demoSubjectStats
      [recRow "一中" 60 5 40 100 (some 1), recRow "全区" 60 5 40 100 none])
      (recRow "全区" 60 5 40 100 none)
      (fun _ => recRow "全区" 50 5 0 60 none)
      (by decide) (by decide) (by decide)).1]
  decide

/-! ## Strongest and weakest subject of a school (claim C9) -/

theorem analyze_school_rows_mem (stats : List (String × SubjectStats))
    (subjects : List String) :
    ∀ (rows : List SchoolAggregate) (res : List SchoolAnalysis),
      analyze_school_rows stats subjects rows = some res →
      ∀ e ∈ res, ∃ row savgs, row ∈ rows ∧
        subject_avgs_for stats row.school subjects = some savgs ∧
        e = mk_school_analysis row savgs := by
  intro rows
  induction rows with
  | nil =>
    intro res h e he
    simp only [analyze_school_rows, Option.some.injEq] at h
    subst h
    cases he
  | cons row rest ih =>
    intro res h e he
    simp only [analyze_school_rows, Option.bind_eq_bind, Option.pure_def] at h
    obtain ⟨savgs, hs, h2⟩ := Option.bind_eq_some.mp h
    obtain ⟨tail, htail, h3⟩ := Option.bind_eq_some.mp h2
    simp only [Option.some.injEq] at h3
    subst h3
    rcases List.mem_cons.mp he with rfl | he2
    · exact ⟨row, savgs, List.mem_cons_self _ _, hs, rfl⟩
    · obtain ⟨row2, savgs2, hm, hsa, he3⟩ := ih tail htail e he2
      exact ⟨row2, savgs2, List.mem_cons_of_mem _ hm, hsa, he3⟩

/-- C9 counterexample: with two subjects A and B tied at average rank 1
for school 一中, the analysis reports B (the later subject in iteration
order) as the weakness subject, while the earliest subject of maximal
rank, as selected by a tie-break toward iteration order, is A. -/
theorem school_weakness_counterexample :
    (analyze_schools tieInput).map (fun l => l.map
        (fun e => (e.strength_subject, e.weakness_subject))) =
      some [(some "A", some "B")]
    ∧ subject_avgs_for tieInput.stats "一中" tieInput.subjects =
        some [SubjAvg.mk "A" 90 1, SubjAvg.mk "B" 85 1]
    ∧ (([SubjAvg.mk "A" 90 1, SubjAvg.mk "B" 85 1]).find?
        (fun a => ([SubjAvg.mk "A" 90 1, SubjAvg.mk "B" 85 1]).all
          (fun b => decide (b.rank ≤ a.rank)))).map (fun a => a.subject) =
        some "A" := by
  decide

/-- C9 (amended): for every school with at least one per-subject entry the
analysis reports as strongest the subject of minimal average-score rank,
ties broken toward the earliest subject in iteration order, and as weakest
the subject of maximal average-score rank, ties broken toward the LATEST
subject in iteration order (not the earliest); every analysis entry arises
this way from its school row and subject list. -/
theorem school_strength_weakness_spec :
    (∀ (row : SchoolAggregate) (savgs : List SubjAvg), savgs ≠ [] →
       (mk_school_analysis row savgs).strength_subject =
           (spec_strongest savgs).map (fun x => x.subject)
       ∧ (mk_school_analysis row savgs).weakness_subject =
           (spec_weakest savgs).map (fun x => x.subject)
       ∧ (∃ m, spec_strongest savgs = some m ∧ m ∈ savgs ∧
            ∀ b ∈ savgs, m.rank ≤ b.rank)
       ∧ (∃ m, spec_weakest savgs = some m ∧ m ∈ savgs ∧
            ∀ b ∈ savgs, b.rank ≤ m.rank))
    ∧ (∀ (stats : List (String × SubjectStats)) (subjects : List String)
         (rows : List SchoolAggregate) (res : List SchoolAnalysis),
        analyze_school_rows stats subjects rows = some res →
        ∀ e ∈ res, ∃ row savgs, row ∈ rows ∧
          subject_avgs_for stats row.school subjects = some savgs ∧
          e = mk_school_analysis row savgs) := by
  constructor
  · intro row savgs hne
    refine ⟨?_, ?_, ?_, ?_⟩
    · show ((ssort (fun a b => decide (a.rank ≤ b.rank)) savgs).head?).map
        (fun x => x.subject) = _
      rw [head_ssort_rank]
    · show ((ssort (fun a b => decide (a.rank ≤ b.rank)) savgs).getLast?).map
        (fun x => x.subject) = _
      rw [getLast_ssort_rank]
    · cases hm : spec_strongest savgs with
      | none =>
        cases savgs with
        | nil => exact absurd rfl hne
        | cons y ys => exact absurd hm (spec_strongest_ne_none y ys)
      | some m =>
        obtain ⟨h1, h2⟩ := spec_strongest_spec savgs m hm
        exact ⟨m, rfl, h1, h2⟩
    · cases hm : spec_weakest savgs with
      | none =>
        cases savgs with
        | nil => exact absurd rfl hne
        | cons y ys => exact absurd hm (spec_weakest_ne_none y ys)
      | some m =>
        obtain ⟨h1, h2⟩ := spec_weakest_spec savgs m hm
        exact ⟨m, rfl, h1, h2⟩
  · intro stats subjects
    exact analyze_school_rows_mem stats subjects

/-- Witness for C9 (amended) at a concrete tied input: the strongest is
the earliest, the weakest the latest of the tied pair. -/
theorem school_strength_weakness_witness :
    (mk_school_analysis (demoRow "一中" 175 (some 1))
        [SubjAvg.mk "A" 90 1, SubjAvg.mk "B" 85 1]).strength_subject =
      (spec_strongest [SubjAvg.mk "A" 90 1, SubjAvg.mk "B" 85 1]).map
        (fun x => x.subject)
    ∧ (mk_school_analysis (demoRow "一中" 175 (some 1))
        [SubjAvg.mk "A" 90 1, SubjAvg.mk "B" 85 1]).weakness_subject =
      (spec_weakest [SubjAvg.mk "A" 90 1, SubjAvg.mk "B" 85 1]).map
        (fun x => x.subject) :=
  ⟨(school_strength_weakness_spec.1 (demoRow "一中" 175 (some 1))
      [SubjAvg.mk "A" 90 1, SubjAvg.mk "B" 85 1] (by decide)).1,
   (school_strength_weakness_spec.1 (demoRow "一中" 175 (some 1))
      [SubjAvg.mk "A" 90 1, SubjAvg.mk "B" 85 1] (by decide)).2.1⟩

/-- Witness for C8: pass rate 90 and excellence rate 25 meet the first
threshold pair. -/
theorem performance_level_witness :
    get_performance_level 90 25 = "优秀" :=
  (performance_level_spec.1 90 25).1.mpr (by norm_num)
